import Mathlib

/-!
Verification of the device state reconciliation engine and the branch-scoped
mutation commands of `demo.py`.

The development is a shallow embedding of the relevant source functions:

* `extract_config_from_device_session` embeds the Python function of the same
  name.  The Python code applies the regex `\[neighbor-address=(.*)\]` with
  `re.search`; `regexSearchNeighborAddress` models exactly that search: the
  leftmost position where the literal marker `[neighbor-address=` matches and a
  closing `]` occurs later on the same line, with the greedy capture running to
  the last `]` on that line (`.` does not match a newline in Python).
* The comparison/planning loop inside `_manage_bgp_session` is embedded by
  `sessionUpdates` / `sessionFound` / `processSession` / `cycleEvents`: for each
  intended session the device list is scanned; every actual entry with the same
  address and a different config triggers a set-operation (an UPDATED event),
  and if no entry has the same address a set-operation is issued after the scan
  (an ADDED event).  The Python code only ever calls `gc.set(update=[...])`;
  no delete operation exists anywhere in the loop, so `SetOp` is the only
  device operation in the model.
* The `while True` loop of `_manage_bgp_session` has no exception handler; a
  run over a finite prefix of the infinite iteration is modelled by `runLoop`
  over a list of per-cycle environments, where any error short-circuits the
  whole run exactly as an uncaught Python exception would.
* `_change_admin_status` and `_change_circuit_status` are embedded as trace
  producers over an abstract source-of-truth service: the returned list of
  `Request` values is the exact sequence of HTTP calls issued, and the
  `Except` layer models `raise_for_status` exceptions.

Config payloads are kept abstract: `V` is any type with decidable equality and
`Option V` adds the Python `None`.
-/

namespace Demo

/-! ## Definitions: shallow embedding of the source -/

/-- One BGP-neighbor configuration record: the dict
`session_config = ...` built by `extract_config_from_device_session`, and
likewise one entry of the intended neighbor list fetched from the
source-of-truth.  `config := none` is Python `None`. -/
structure NeighborConfig (V : Type) where
  neighborAddress : String
  config : Option V
deriving DecidableEq, Repr

/-- One raw streamed update record: the `session` dict with its `path` string
and its `val` mapping (dict iteration order is insertion order, modelled by a
list of key/value pairs). -/
structure PathUpdate (V : Type) where
  path : String
  val : List (String × Option V)
deriving DecidableEq, Repr

/-- The single failure mode of the extraction step: `re.search` found no
`[neighbor-address=...]` segment, so `result.group(1)` raises. -/
inductive ExtractError where
  | malformedPath
deriving DecidableEq, Repr

/-- Python substring prefix test on character lists. -/
def charsPrefix : List Char → List Char → Bool
  | [], _ => true
  | _ :: _, [] => false
  | a :: as, b :: bs => a == b && charsPrefix as bs

/-- Python's `in` substring test on character lists (pattern, text). -/
def containsSub (pat : List Char) : List Char → Bool
  | [] => pat.isEmpty
  | t :: rest => charsPrefix pat (t :: rest) || containsSub pat rest

/-- The literal characters of the regex prefix `[neighbor-address=`. -/
def neighborAddressMarker : List Char := "[neighbor-address=".data

/-- The literal substring `:config` scanned for in the `val` keys. -/
def configKeyMarker : List Char := ":config".data

/-- Greedy part of the regex: given the characters after the marker (already
restricted to the current line), drop everything from the last `]` on and
return the capture; `none` when no `]` exists. -/
def lastBracketCapture : List Char → Option (List Char)
  | [] => none
  | c :: rest =>
    match lastBracketCapture rest with
    | some cap => some (c :: cap)
    | none => if c = ']' then some [] else none

/-- `re.search` of `\[neighbor-address=(.*)\]`: scan left to right for the
first position where the marker matches and a `]` follows before the next
newline; the greedy `(.*)` capture extends to the last such `]`. -/
def regexSearchNeighborAddress : List Char → Option (List Char)
  | [] => none
  | c :: rest =>
    if charsPrefix neighborAddressMarker (c :: rest) then
      match lastBracketCapture
          (((c :: rest).drop neighborAddressMarker.length).takeWhile (fun ch => ch != '\n')) with
      | some cap => some cap
      | none => regexSearchNeighborAddress rest
    else regexSearchNeighborAddress rest

/-- Embedding of `extract_config_from_device_session`: capture the
neighbor address from the path, then fold over the `val` items, the value of
every key containing `:config` overwriting the `config` field (initially
Python `None`). -/
def extract_config_from_device_session {V : Type} (u : PathUpdate V) :
    Except ExtractError (NeighborConfig V) :=
  match regexSearchNeighborAddress u.path.data with
  | none => .error .malformedPath
  | some cap =>
    .ok { neighborAddress := ⟨cap⟩,
          config := u.val.foldl
            (fun acc kv => if containsSub configKeyMarker kv.1.data then kv.2 else acc) none }

/-- `OC_BGP_BASE_PATH` from the source. -/
def OC_BGP_BASE_PATH : String :=
  "openconfig:/network-instances/network-instance[name=default]/protocols/protocol[name=BGP]/bgp"

/-- `OC_BGP_NEIGHBOR_PATH` from the source. -/
def OC_BGP_NEIGHBOR_PATH : String := OC_BGP_BASE_PATH ++ "/neighbors/neighbor"

/-- One unit of corrective work sent through `gc.set(update=[...])`: the
per-neighbor target path and the payload dict, whose single key `config`
carries the intended config value. -/
structure SetOp (V : Type) where
  targetPath : String
  payloadConfig : Option V
deriving DecidableEq, Repr

/-- The set-operation tuple the loop builds for an intended session. -/
def mkOp {V : Type} (i : NeighborConfig V) : SetOp V :=
  ⟨OC_BGP_NEIGHBOR_PATH ++ "[neighbor-address=" ++ i.neighborAddress ++ "]", i.config⟩

/-- One `gc.set` call together with its log line: `UPDATED` from inside the
scan over the device sessions, `ADDED` after a scan that found no address
match. -/
inductive CycleEvent (V : Type) where
  | updated (addr : String) (op : SetOp V)
  | added (addr : String) (op : SetOp V)
deriving DecidableEq, Repr

/-- Inner `for existing_session in ...` loop: entries with a different
address are skipped (`continue`); an entry with the same address and a
different config triggers an immediate set-operation. -/
def sessionUpdates {V : Type} [DecidableEq V] (i : NeighborConfig V) :
    List (NeighborConfig V) → List (CycleEvent V)
  | [] => []
  | e :: rest =>
    if i.neighborAddress = e.neighborAddress then
      (if i.config = e.config then [] else [CycleEvent.updated i.neighborAddress (mkOp i)])
        ++ sessionUpdates i rest
    else sessionUpdates i rest

/-- The `found` flag after the inner loop: set exactly when some device
session has the same address. -/
def sessionFound {V : Type} (i : NeighborConfig V) (A : List (NeighborConfig V)) : Bool :=
  A.any (fun e => i.neighborAddress == e.neighborAddress)

/-- Everything the loop body does for one intended session: the scan's
set-operations, then — only when no address matched — one creating
set-operation. -/
def processSession {V : Type} [DecidableEq V] (i : NeighborConfig V)
    (A : List (NeighborConfig V)) : List (CycleEvent V) :=
  sessionUpdates i A
    ++ (if sessionFound i A then [] else [CycleEvent.added i.neighborAddress (mkOp i)])

/-- Outer `for intended_session in ...` loop: process each intended session
in order against the full device list. -/
def cycleEvents {V : Type} [DecidableEq V] :
    List (NeighborConfig V) → List (NeighborConfig V) → List (CycleEvent V)
  | [], _ => []
  | i :: rest, A => processSession i A ++ cycleEvents rest A

/-- The set-operation carried by an event. -/
def eventOp {V : Type} : CycleEvent V → SetOp V
  | .updated _ op => op
  | .added _ op => op

/-- The neighbor address an event concerns. -/
def eventAddr {V : Type} : CycleEvent V → String
  | .updated a _ => a
  | .added a _ => a

/-- All set-operations one cycle issues, in issue order. -/
def cycleOps {V : Type} [DecidableEq V] (I A : List (NeighborConfig V)) : List (SetOp V) :=
  (cycleEvents I A).map eventOp

/-- Addresses for which the cycle issued an updating set-operation. -/
def updatedAddrs {V : Type} [DecidableEq V] (I A : List (NeighborConfig V)) : List String :=
  (cycleEvents I A).filterMap fun ev =>
    match ev with
    | CycleEvent.updated a _ => some a
    | _ => none

/-- Addresses for which the cycle issued a creating set-operation. -/
def missingAddrs {V : Type} [DecidableEq V] (I A : List (NeighborConfig V)) : List String :=
  (cycleEvents I A).filterMap fun ev =>
    match ev with
    | CycleEvent.added a _ => some a
    | _ => none

/-- Addresses of intended sessions for which the loop body did nothing. -/
def matchedAddrs {V : Type} [DecidableEq V] (I A : List (NeighborConfig V)) : List String :=
  (I.filter fun i => (processSession i A).isEmpty).map (·.neighborAddress)

/-- Per-cycle outcome: the events, whether the final
`All BGP sessions are already present` line was logged (the `update`
variable is still the empty list and `create` always is), and the
unconditional `time.sleep(interval)` at the end of the body. -/
structure CycleResult (V : Type) where
  events : List (CycleEvent V)
  allPresentLogged : Bool
  sleepSeconds : Nat
deriving DecidableEq, Repr

/-- The pure core of one loop body run on already-fetched data. -/
def runCycleCore {V : Type} [DecidableEq V] (I A : List (NeighborConfig V))
    (interval : Nat) : CycleResult V :=
  ⟨cycleEvents I A, (cycleEvents I A).isEmpty, interval⟩

/-- Derived per-record classification: what the loop body does with one
intended session when device addresses are unique (proved equivalent to
`processSession` below). -/
inductive SessionClass where
  | matched
  | updated
  | missing
deriving DecidableEq, Repr

/-- Classify one intended session against the device list. -/
def classifyOne {V : Type} [DecidableEq V] (i : NeighborConfig V)
    (A : List (NeighborConfig V)) : SessionClass :=
  match A.find? (fun e => i.neighborAddress == e.neighborAddress) with
  | none => .missing
  | some e => if i.config = e.config then .matched else .updated

/-- A failed collaborator round trip (`httpx` / `raise_for_status` /
`gNMIclient`). -/
inductive FetchError where
  | transport
deriving DecidableEq, Repr

/-- What the two collaborators answer during one cycle: the intended neighbor
list from the source-of-truth REST endpoint, and the raw update records from
the device `get`. -/
structure CycleEnv (V : Type) where
  fetchIntended : Except FetchError (List (NeighborConfig V))
  deviceGet : Except FetchError (List (PathUpdate V))

/-- Any exception escaping one loop body. -/
inductive CycleError where
  | fetchIntendedError
  | deviceFetchError
  | extractError (e : ExtractError)
deriving DecidableEq, Repr

/-- The list comprehension
`[extract_config_from_device_session(s) for s in device_sessions]`:
elements in order, the first raising element aborting the whole
comprehension. -/
def extractAll {V : Type} :
    List (PathUpdate V) → Except ExtractError (List (NeighborConfig V))
  | [] => .ok []
  | u :: rest =>
    match extract_config_from_device_session u with
    | .error e => .error e
    | .ok c =>
      match extractAll rest with
      | .error e => .error e
      | .ok cs => .ok (c :: cs)

/-- One full body of the `while True` loop: fetch intended state, fetch the
device snapshot, extract every record, then compare/plan/apply.  There is no
`try`/`except` anywhere in the body, so every failure escapes as an error. -/
def runCycle {V : Type} [DecidableEq V] (interval : Nat) (env : CycleEnv V) :
    Except CycleError (CycleResult V) :=
  match env.fetchIntended with
  | .error _ => .error .fetchIntendedError
  | .ok intended =>
    match env.deviceGet with
    | .error _ => .error .deviceFetchError
    | .ok updates =>
      match extractAll updates with
      | .error e => .error (.extractError e)
      | .ok actual => .ok (runCycleCore intended actual interval)

/-- A finite prefix of the infinite `while True` loop, one environment per
cycle.  An error in any cycle terminates the whole run — exactly the
propagation of an uncaught exception out of the loop. -/
def runLoop {V : Type} [DecidableEq V] (interval : Nat) :
    List (CycleEnv V) → Except CycleError (List (CycleResult V))
  | [] => .ok []
  | env :: rest =>
    match runCycle interval env with
    | .error e => .error e
    | .ok r => (runLoop interval rest).map (r :: ·)

/-- One HTTP call issued through `execute_query` (the GraphQL document and its
variables). -/
inductive Request where
  | getInterface (device interface : String)
  | getCircuit (circuit : String)
  | branchCreate (branch : String)
  | interfaceUpdateAdminStatus (branch interfaceId : String) (adminStatus : Bool)
  | circuitUpdateStatus (branch circuitId status : String)
  | branchMerge (branch : String)
deriving DecidableEq, Repr

/-- The body of one 2xx GraphQL response, reduced to the fields the two
commands read: presence of the top-level `errors` array (with its messages),
and the `data` fields each step extracts.  Fields irrelevant to a given
request are simply never read. -/
structure GraphQLResponse where
  errors : Option (List String) := none
  interfaceId : String := ""
  interfaceEnabled : Bool := false
  circuitId : String := ""
  circuitStatus : String := ""
  mergeOk : Bool := false
deriving DecidableEq, Repr

/-- `raise_for_status` raised (non-2xx status or transport failure). -/
inductive HttpError where
  | httpStatusError
deriving DecidableEq, Repr

/-- The source-of-truth collaborator: each issued request either raises or
returns a parsed 2xx body. -/
def Service : Type := Request → Except HttpError GraphQLResponse

/-- What `_change_admin_status` prints at the end. -/
inductive AdminOutcome where
  | success
  | errorsPrinted (msgs : List String)
  | silent
deriving DecidableEq, Repr

/-- Embedding of `_change_admin_status`: query the interface, create a branch,
flip the admin status on the branch, merge the branch.  The first component is
the exact sequence of requests issued (also when a call raises); note that the
mutation's response is bound but never inspected — the merge is requested
unconditionally afterwards. -/
def change_admin_status (device interface newBranchName : String) (svc : Service) :
    List Request × Except HttpError AdminOutcome :=
  match svc (Request.getInterface device interface) with
  | .error e => ([Request.getInterface device interface], .error e)
  | .ok r1 =>
    match svc (Request.branchCreate newBranchName) with
    | .error e => ([Request.getInterface device interface,
        Request.branchCreate newBranchName], .error e)
    | .ok _ =>
      match svc (Request.interfaceUpdateAdminStatus newBranchName r1.interfaceId
          (!r1.interfaceEnabled)) with
      | .error e => ([Request.getInterface device interface,
          Request.branchCreate newBranchName,
          Request.interfaceUpdateAdminStatus newBranchName r1.interfaceId
            (!r1.interfaceEnabled)], .error e)
      | .ok _ =>
        match svc (Request.branchMerge newBranchName) with
        | .error e => ([Request.getInterface device interface,
            Request.branchCreate newBranchName,
            Request.interfaceUpdateAdminStatus newBranchName r1.interfaceId
              (!r1.interfaceEnabled),
            Request.branchMerge newBranchName], .error e)
        | .ok r4 =>
          ([Request.getInterface device interface,
            Request.branchCreate newBranchName,
            Request.interfaceUpdateAdminStatus newBranchName r1.interfaceId
              (!r1.interfaceEnabled),
            Request.branchMerge newBranchName],
            .ok (match r4.errors with
              | some msgs => AdminOutcome.errorsPrinted msgs
              | none => if r4.mergeOk then AdminOutcome.success else AdminOutcome.silent))

/-- What `_change_circuit_status` returns/prints at the end:
`nothingToDo` is the early `return False`. -/
inductive CircuitOutcome where
  | nothingToDo
  | success
  | errorsPrinted (msgs : List String)
  | silent
deriving DecidableEq, Repr

/-- Embedding of `_change_circuit_status`: query the circuit; if its current
status already equals the requested one, return `False` at once (no further
request); otherwise create a branch, update the status on it and merge. -/
def change_circuit_status (circuit status newBranchName : String) (svc : Service) :
    List Request × Except HttpError CircuitOutcome :=
  match svc (Request.getCircuit circuit) with
  | .error e => ([Request.getCircuit circuit], .error e)
  | .ok r1 =>
    if r1.circuitStatus = status then
      ([Request.getCircuit circuit], .ok CircuitOutcome.nothingToDo)
    else
      match svc (Request.branchCreate newBranchName) with
      | .error e => ([Request.getCircuit circuit,
          Request.branchCreate newBranchName], .error e)
      | .ok _ =>
        match svc (Request.circuitUpdateStatus newBranchName r1.circuitId status) with
        | .error e => ([Request.getCircuit circuit,
            Request.branchCreate newBranchName,
            Request.circuitUpdateStatus newBranchName r1.circuitId status], .error e)
        | .ok _ =>
          match svc (Request.branchMerge newBranchName) with
          | .error e => ([Request.getCircuit circuit,
              Request.branchCreate newBranchName,
              Request.circuitUpdateStatus newBranchName r1.circuitId status,
              Request.branchMerge newBranchName], .error e)
          | .ok r4 =>
            ([Request.getCircuit circuit,
              Request.branchCreate newBranchName,
              Request.circuitUpdateStatus newBranchName r1.circuitId status,
              Request.branchMerge newBranchName],
              .ok (match r4.errors with
                | some msgs => CircuitOutcome.errorsPrinted msgs
                | none => if r4.mergeOk then CircuitOutcome.success
                  else CircuitOutcome.silent))

/-- The service of the C1 scenario: queries and branch operations succeed,
but the admin-status mutation returns a 2xx body with a top-level errors
array. -/
def svcMutFail : Service
  | Request.interfaceUpdateAdminStatus _ _ _ => .ok { errors := some ["mutation failed"] }
  | Request.branchMerge _ => .ok { mergeOk := true }
  | _ => .ok { interfaceId := "intf-1", interfaceEnabled := true }

/-- A service whose circuit query reports the status `active`. -/
def svcCircuitActive : Service :=
  fun _ => .ok { circuitStatus := "active", circuitId := "ckt-uuid" }

/-! ## Theorems -/

theorem sessionFound_cons {V : Type} (i e : NeighborConfig V) (rest : List (NeighborConfig V)) :
    sessionFound i (e :: rest)
      = ((i.neighborAddress == e.neighborAddress) || sessionFound i rest) :=
  List.any_cons

theorem sessionFound_true_iff {V : Type} (i : NeighborConfig V) (A : List (NeighborConfig V)) :
    sessionFound i A = true ↔ ∃ e ∈ A, i.neighborAddress = e.neighborAddress := by
  simp [sessionFound, List.any_eq_true]

theorem sessionUpdates_eq_nil {V : Type} [DecidableEq V] (i : NeighborConfig V)
    (A : List (NeighborConfig V))
    (h : ∀ e ∈ A, i.neighborAddress = e.neighborAddress → i.config = e.config) :
    sessionUpdates i A = [] := by
  induction A with
  | nil => rfl
  | cons e rest ih =>
    have hrest : ∀ e' ∈ rest, i.neighborAddress = e'.neighborAddress → i.config = e'.config :=
      fun e' he' => h e' (List.mem_cons_of_mem _ he')
    by_cases haddr : i.neighborAddress = e.neighborAddress
    · have hcfg : i.config = e.config := h e (List.mem_cons_self _ _) haddr
      simp [sessionUpdates, haddr, hcfg, ih hrest]
    · simp [sessionUpdates, haddr, ih hrest]

theorem mem_sessionUpdates {V : Type} [DecidableEq V] {i : NeighborConfig V}
    {A : List (NeighborConfig V)} {ev : CycleEvent V} (h : ev ∈ sessionUpdates i A) :
    ev = CycleEvent.updated i.neighborAddress (mkOp i) := by
  induction A with
  | nil => simp [sessionUpdates] at h
  | cons e rest ih =>
    by_cases haddr : i.neighborAddress = e.neighborAddress
    · by_cases hcfg : i.config = e.config
      · simp only [sessionUpdates, if_pos haddr, if_pos hcfg, List.nil_append] at h
        exact ih h
      · simp only [sessionUpdates, if_pos haddr, if_neg hcfg, List.cons_append,
          List.nil_append, List.mem_cons] at h
        rcases h with h | h
        · exact h
        · exact ih h
    · simp only [sessionUpdates, if_neg haddr] at h
      exact ih h

theorem sessionFound_of_mem_sessionUpdates {V : Type} [DecidableEq V] {i : NeighborConfig V}
    {A : List (NeighborConfig V)} {ev : CycleEvent V} (h : ev ∈ sessionUpdates i A) :
    sessionFound i A = true := by
  induction A with
  | nil => simp [sessionUpdates] at h
  | cons e rest ih =>
    rw [sessionFound_cons]
    by_cases haddr : i.neighborAddress = e.neighborAddress
    · simp [haddr]
    · simp only [sessionUpdates, if_neg haddr] at h
      simp [ih h]

theorem mem_processSession {V : Type} [DecidableEq V] {i : NeighborConfig V}
    {A : List (NeighborConfig V)} {ev : CycleEvent V} (h : ev ∈ processSession i A) :
    ev = CycleEvent.updated i.neighborAddress (mkOp i)
      ∨ ev = CycleEvent.added i.neighborAddress (mkOp i) := by
  unfold processSession at h
  rcases List.mem_append.mp h with h | h
  · exact Or.inl (mem_sessionUpdates h)
  · by_cases hf : sessionFound i A = true
    · simp [hf] at h
    · simp only [Bool.not_eq_true] at hf
      simp only [hf, Bool.false_eq_true, if_neg, ite_false, List.mem_singleton] at h
      exact Or.inr h

theorem added_mem_processSession_found {V : Type} [DecidableEq V] {i : NeighborConfig V}
    {A : List (NeighborConfig V)} {a : String} {op : SetOp V}
    (h : CycleEvent.added a op ∈ processSession i A) : sessionFound i A = false := by
  unfold processSession at h
  rcases List.mem_append.mp h with h | h
  · exact absurd (mem_sessionUpdates h) (by simp)
  · by_cases hf : sessionFound i A = true
    · simp [hf] at h
    · simpa using hf

theorem updated_mem_processSession_found {V : Type} [DecidableEq V] {i : NeighborConfig V}
    {A : List (NeighborConfig V)} {a : String} {op : SetOp V}
    (h : CycleEvent.updated a op ∈ processSession i A) : sessionFound i A = true := by
  unfold processSession at h
  rcases List.mem_append.mp h with h | h
  · exact sessionFound_of_mem_sessionUpdates h
  · by_cases hf : sessionFound i A = true
    · exact hf
    · simp only [Bool.not_eq_true] at hf
      simp [hf] at h

theorem mem_cycleEvents {V : Type} [DecidableEq V] {I A : List (NeighborConfig V)}
    {ev : CycleEvent V} :
    ev ∈ cycleEvents I A ↔ ∃ i ∈ I, ev ∈ processSession i A := by
  induction I with
  | nil => simp [cycleEvents]
  | cons i rest ih =>
    simp only [cycleEvents, List.mem_append, ih, List.mem_cons]
    constructor
    · rintro (h | ⟨j, hj, hmem⟩)
      · exact ⟨i, Or.inl rfl, h⟩
      · exact ⟨j, Or.inr hj, hmem⟩
    · rintro ⟨j, hj | hj, hmem⟩
      · exact Or.inl (hj ▸ hmem)
      · exact Or.inr ⟨j, hj, hmem⟩

/-- With unique device addresses the loop body's behaviour for one intended
session is exactly the three-way classification. -/
theorem processSession_eq_classify {V : Type} [DecidableEq V] (i : NeighborConfig V)
    (A : List (NeighborConfig V)) (hA : (A.map (·.neighborAddress)).Nodup) :
    processSession i A =
      match classifyOne i A with
      | SessionClass.matched => []
      | SessionClass.updated => [CycleEvent.updated i.neighborAddress (mkOp i)]
      | SessionClass.missing => [CycleEvent.added i.neighborAddress (mkOp i)] := by
  induction A with
  | nil => simp [processSession, sessionUpdates, sessionFound, classifyOne]
  | cons e rest ih =>
    rw [List.map_cons, List.nodup_cons] at hA
    obtain ⟨hnotmem, hrest⟩ := hA
    by_cases haddr : i.neighborAddress = e.neighborAddress
    · have hnone : ∀ e' ∈ rest, i.neighborAddress ≠ e'.neighborAddress := by
        intro e' he' hcontra
        exact hnotmem (List.mem_map.mpr ⟨e', he', hcontra.symm.trans haddr⟩)
      have hupd_rest : sessionUpdates i rest = [] :=
        sessionUpdates_eq_nil i rest (fun e' he' ha => absurd ha (hnone e' he'))
      have hfound : sessionFound i (e :: rest) = true := by
        rw [sessionFound_cons]
        simp [haddr]
      have hfind : (e :: rest).find? (fun e' => i.neighborAddress == e'.neighborAddress)
          = some e := by
        simp [List.find?, haddr]
      by_cases hcfg : i.config = e.config
      · simp [processSession, sessionUpdates, if_pos haddr, if_pos hcfg, hupd_rest,
          hfound, classifyOne, hfind]
      · simp [processSession, sessionUpdates, if_pos haddr, if_neg hcfg, hupd_rest,
          hfound, classifyOne, hfind]
    · have hbeq : (i.neighborAddress == e.neighborAddress) = false := by
        simp [haddr]
      have hfind : (e :: rest).find? (fun e' => i.neighborAddress == e'.neighborAddress)
          = rest.find? (fun e' => i.neighborAddress == e'.neighborAddress) := by
        simp [List.find?_cons, hbeq]
      have hfound : sessionFound i (e :: rest) = sessionFound i rest := by
        rw [sessionFound_cons]
        simp [haddr]
      have : processSession i (e :: rest) = processSession i rest := by
        simp [processSession, sessionUpdates, if_neg haddr, hfound]
      rw [this, ih hrest]
      simp [classifyOne, hfind]

theorem mem_updatedAddrs {V : Type} [DecidableEq V] {I A : List (NeighborConfig V)}
    {a : String} :
    a ∈ updatedAddrs I A ↔ ∃ op, CycleEvent.updated a op ∈ cycleEvents I A := by
  simp only [updatedAddrs, List.mem_filterMap]
  constructor
  · rintro ⟨ev, hev, hf⟩
    cases ev with
    | updated a' op =>
      simp only [Option.some.injEq] at hf
      exact ⟨op, hf ▸ hev⟩
    | added a' op => simp at hf
  · rintro ⟨op, hop⟩
    exact ⟨_, hop, rfl⟩

theorem mem_missingAddrs {V : Type} [DecidableEq V] {I A : List (NeighborConfig V)}
    {a : String} :
    a ∈ missingAddrs I A ↔ ∃ op, CycleEvent.added a op ∈ cycleEvents I A := by
  simp only [missingAddrs, List.mem_filterMap]
  constructor
  · rintro ⟨ev, hev, hf⟩
    cases ev with
    | updated a' op => simp at hf
    | added a' op =>
      simp only [Option.some.injEq] at hf
      exact ⟨op, hf ▸ hev⟩
  · rintro ⟨op, hop⟩
    exact ⟨_, hop, rfl⟩

theorem mem_matchedAddrs {V : Type} [DecidableEq V] {I A : List (NeighborConfig V)}
    {a : String} :
    a ∈ matchedAddrs I A
      ↔ ∃ i ∈ I, i.neighborAddress = a ∧ processSession i A = [] := by
  simp only [matchedAddrs, List.mem_map, List.mem_filter, List.isEmpty_iff]
  constructor
  · rintro ⟨i, ⟨hi, hp⟩, ha⟩
    exact ⟨i, hi, ha, hp⟩
  · rintro ⟨i, hi, ha, hp⟩
    exact ⟨i, ⟨hi, hp⟩, ha⟩

theorem updated_event_record {V : Type} [DecidableEq V] {I A : List (NeighborConfig V)}
    {a : String} {op : SetOp V} (h : CycleEvent.updated a op ∈ cycleEvents I A) :
    ∃ i ∈ I, i.neighborAddress = a ∧ CycleEvent.updated a op ∈ processSession i A := by
  obtain ⟨i, hi, hmem⟩ := mem_cycleEvents.mp h
  rcases mem_processSession hmem with heq | heq
  · cases heq
    exact ⟨i, hi, rfl, hmem⟩
  · cases heq

theorem added_event_record {V : Type} [DecidableEq V] {I A : List (NeighborConfig V)}
    {a : String} {op : SetOp V} (h : CycleEvent.added a op ∈ cycleEvents I A) :
    ∃ i ∈ I, i.neighborAddress = a ∧ CycleEvent.added a op ∈ processSession i A := by
  obtain ⟨i, hi, hmem⟩ := mem_cycleEvents.mp h
  rcases mem_processSession hmem with heq | heq
  · cases heq
  · cases heq
    exact ⟨i, hi, rfl, hmem⟩

/-- C2: with the data model's key invariant (each intended record keyed by a
unique address), the loop body classifies every intended address into exactly
one of matched / updated / missing — the three address sets are pairwise
disjoint and together cover exactly the addresses of the intended collection —
and every device operation of the cycle concerns an intended address, so an
address present only on the device never appears in any set and never causes
any operation (the loop issues only `gc.set` update operations, no deletes). -/
theorem compare_partition {V : Type} [DecidableEq V] (I A : List (NeighborConfig V))
    (hI : (I.map (·.neighborAddress)).Nodup) :
    (∀ a, a ∈ I.map (·.neighborAddress)
        ↔ (a ∈ matchedAddrs I A ∨ a ∈ updatedAddrs I A ∨ a ∈ missingAddrs I A))
    ∧ (∀ a, ¬(a ∈ matchedAddrs I A ∧ a ∈ updatedAddrs I A)
        ∧ ¬(a ∈ matchedAddrs I A ∧ a ∈ missingAddrs I A)
        ∧ ¬(a ∈ updatedAddrs I A ∧ a ∈ missingAddrs I A))
    ∧ (∀ ev ∈ cycleEvents I A, eventAddr ev ∈ I.map (·.neighborAddress)) := by
  have hinj : ∀ x ∈ I, ∀ y ∈ I, x.neighborAddress = y.neighborAddress → x = y :=
    fun x hx y hy hxy => List.inj_on_of_nodup_map hI hx hy hxy
  refine ⟨?_, ?_, ?_⟩
  · intro a
    constructor
    · intro ha
      obtain ⟨i, hi, hia⟩ := List.mem_map.mp ha
      by_cases hp : processSession i A = []
      · exact Or.inl (mem_matchedAddrs.mpr ⟨i, hi, hia, hp⟩)
      · obtain ⟨ev, hev⟩ := List.exists_mem_of_ne_nil _ hp
        rcases mem_processSession hev with heq | heq
        · refine Or.inr (Or.inl (mem_updatedAddrs.mpr ⟨mkOp i, ?_⟩))
          rw [← hia]
          exact mem_cycleEvents.mpr ⟨i, hi, heq ▸ hev⟩
        · refine Or.inr (Or.inr (mem_missingAddrs.mpr ⟨mkOp i, ?_⟩))
          rw [← hia]
          exact mem_cycleEvents.mpr ⟨i, hi, heq ▸ hev⟩
    · rintro (h | h | h)
      · obtain ⟨i, hi, hia, -⟩ := mem_matchedAddrs.mp h
        exact List.mem_map.mpr ⟨i, hi, hia⟩
      · obtain ⟨op, hop⟩ := mem_updatedAddrs.mp h
        obtain ⟨i, hi, hia, -⟩ := updated_event_record hop
        exact List.mem_map.mpr ⟨i, hi, hia⟩
      · obtain ⟨op, hop⟩ := mem_missingAddrs.mp h
        obtain ⟨i, hi, hia, -⟩ := added_event_record hop
        exact List.mem_map.mpr ⟨i, hi, hia⟩
  · intro a
    refine ⟨?_, ?_, ?_⟩
    · rintro ⟨hm, hu⟩
      obtain ⟨i, hi, hia, hp⟩ := mem_matchedAddrs.mp hm
      obtain ⟨op, hop⟩ := mem_updatedAddrs.mp hu
      obtain ⟨j, hj, hja, hmem⟩ := updated_event_record hop
      have : j = i := hinj j hj i hi (hja.trans hia.symm)
      rw [this, hp] at hmem
      exact absurd hmem (List.not_mem_nil _)
    · rintro ⟨hm, hmiss⟩
      obtain ⟨i, hi, hia, hp⟩ := mem_matchedAddrs.mp hm
      obtain ⟨op, hop⟩ := mem_missingAddrs.mp hmiss
      obtain ⟨j, hj, hja, hmem⟩ := added_event_record hop
      have : j = i := hinj j hj i hi (hja.trans hia.symm)
      rw [this, hp] at hmem
      exact absurd hmem (List.not_mem_nil _)
    · rintro ⟨hu, hmiss⟩
      obtain ⟨opu, hopu⟩ := mem_updatedAddrs.mp hu
      obtain ⟨i, hi, hia, hmemu⟩ := updated_event_record hopu
      obtain ⟨opa, hopa⟩ := mem_missingAddrs.mp hmiss
      obtain ⟨j, hj, hja, hmema⟩ := added_event_record hopa
      have hji : j = i := hinj j hj i hi (hja.trans hia.symm)
      rw [hji] at hmema
      have hf1 : sessionFound i A = true := updated_mem_processSession_found hmemu
      have hf2 : sessionFound i A = false := added_mem_processSession_found hmema
      rw [hf1] at hf2
      exact absurd hf2 (by simp)
  · intro ev hev
    obtain ⟨i, hi, hmem⟩ := mem_cycleEvents.mp hev
    rcases mem_processSession hmem with heq | heq <;>
      · rw [heq]
        exact List.mem_map.mpr ⟨i, hi, rfl⟩

theorem cycleOps_cons {V : Type} [DecidableEq V] (i : NeighborConfig V)
    (rest A : List (NeighborConfig V)) :
    cycleOps (i :: rest) A = (processSession i A).map eventOp ++ cycleOps rest A := by
  simp [cycleOps, cycleEvents]

theorem cycleOps_eq_filter {V : Type} [DecidableEq V] (I A : List (NeighborConfig V))
    (hA : (A.map (·.neighborAddress)).Nodup) :
    cycleOps I A
      = (I.filter fun i => decide (¬ classifyOne i A = SessionClass.matched)).map mkOp := by
  induction I with
  | nil => rfl
  | cons i rest ih =>
    rw [cycleOps_cons, processSession_eq_classify i A hA, ih]
    cases hc : classifyOne i A <;> simp [List.filter_cons, hc, eventOp]

theorem event_count {V : Type} (evs : List (CycleEvent V)) :
    (evs.filterMap fun ev =>
        match ev with
        | CycleEvent.updated a _ => some a
        | _ => none).length
      + (evs.filterMap fun ev =>
        match ev with
        | CycleEvent.added a _ => some a
        | _ => none).length
      = evs.length := by
  induction evs with
  | nil => rfl
  | cons ev rest ih =>
    cases ev <;> simp [List.filterMap_cons] <;> omega

/-- C3: the cycle issues exactly one set-operation per intended record not
classified as matched (none for matched records), in the iteration order of
the intended collection, each operation targeting the per-neighbor path keyed
by that record's address and carrying the record's intended config as payload;
their number is the number of updated addresses plus the number of missing
addresses. -/
theorem plan_one_op_per_divergent_session {V : Type} [DecidableEq V]
    (I A : List (NeighborConfig V))
    (hA : (A.map (·.neighborAddress)).Nodup) :
    cycleOps I A
        = (I.filter fun i => decide (¬ classifyOne i A = SessionClass.matched)).map mkOp
    ∧ (∀ op ∈ cycleOps I A, ∃ i ∈ I,
        op = mkOp i
        ∧ op.targetPath
            = OC_BGP_NEIGHBOR_PATH ++ "[neighbor-address=" ++ i.neighborAddress ++ "]"
        ∧ op.payloadConfig = i.config)
    ∧ (cycleOps I A).length = (updatedAddrs I A).length + (missingAddrs I A).length := by
  refine ⟨cycleOps_eq_filter I A hA, ?_, ?_⟩
  · intro op hop
    rw [cycleOps_eq_filter I A hA] at hop
    obtain ⟨i, hi, hio⟩ := List.mem_map.mp hop
    exact ⟨i, (List.mem_filter.mp hi).1, hio.symm, by rw [← hio] ; rfl, by rw [← hio] ; rfl⟩
  · rw [cycleOps, List.length_map, updatedAddrs, missingAddrs, event_count]

theorem cycleEvents_eq_nil {V : Type} [DecidableEq V] (I A : List (NeighborConfig V))
    (h : ∀ i ∈ I, processSession i A = []) : cycleEvents I A = [] := by
  induction I with
  | nil => rfl
  | cons i rest ih =>
    simp only [cycleEvents, h i (List.mem_cons_self _ _), List.nil_append]
    exact ih fun j hj => h j (List.mem_cons_of_mem _ hj)

/-- C7: when the device state equals the intended state (same records, unique
addresses), one cycle issues zero set-operations, logs
`All BGP sessions are already present`, and still sleeps the full configured
interval. -/
theorem reconcile_idempotent {V : Type} [DecidableEq V] (I : List (NeighborConfig V))
    (interval : Nat) (hI : (I.map (·.neighborAddress)).Nodup) :
    cycleOps I I = []
    ∧ runCycleCore I I interval
        = ⟨[], true, interval⟩ := by
  have hinj : ∀ x ∈ I, ∀ y ∈ I, x.neighborAddress = y.neighborAddress → x = y :=
    fun x hx y hy hxy => List.inj_on_of_nodup_map hI hx hy hxy
  have hnil : cycleEvents I I = [] := by
    apply cycleEvents_eq_nil
    intro i hi
    have hupd : sessionUpdates i I = [] := by
      apply sessionUpdates_eq_nil
      intro e he haddr
      rw [hinj i hi e he haddr]
    have hfound : sessionFound i I = true :=
      (sessionFound_true_iff i I).mpr ⟨i, hi, rfl⟩
    unfold processSession
    rw [hupd, hfound]
    rfl
  exact ⟨by simp [cycleOps, hnil], by simp [runCycleCore, hnil]⟩

theorem find?_eq_head?_filter {α : Type} (p : α → Bool) (l : List α) :
    l.find? p = (l.filter p).head? := by
  induction l with
  | nil => rfl
  | cons a rest ih =>
    rw [List.find?_cons, List.filter_cons]
    cases h : p a with
    | true => rfl
    | false => simpa using ih

theorem filter_addr_length_le_one {V : Type} (x : String) (A : List (NeighborConfig V))
    (hA : (A.map (·.neighborAddress)).Nodup) :
    (A.filter fun e => x == e.neighborAddress).length ≤ 1 := by
  induction A with
  | nil => simp
  | cons e rest ih =>
    rw [List.map_cons, List.nodup_cons] at hA
    obtain ⟨hnotmem, hrest⟩ := hA
    by_cases h : (x == e.neighborAddress) = true
    · have hx : x = e.neighborAddress := beq_iff_eq.mp h
      have hempty : rest.filter (fun e' => x == e'.neighborAddress) = [] := by
        rw [List.filter_eq_nil_iff]
        intro e' he' hbeq
        exact hnotmem (List.mem_map.mpr ⟨e', he', (beq_iff_eq.mp hbeq).symm.trans hx⟩)
      simp [List.filter_cons, h, hempty]
    · rw [Bool.not_eq_true] at h
      simp only [List.filter_cons, h]
      exact ih hrest

theorem perm_eq_of_length_le_one {α : Type} {l l' : List α} (hperm : l.Perm l')
    (hlen : l.length ≤ 1) : l = l' := by
  match l, hlen with
  | [], _ => exact hperm.symm.eq_nil.symm
  | [a], _ => rw [(List.perm_singleton.mp hperm.symm)]

theorem classifyOne_perm {V : Type} [DecidableEq V] (i : NeighborConfig V)
    {A A' : List (NeighborConfig V)} (hperm : A.Perm A')
    (hA : (A.map (·.neighborAddress)).Nodup) :
    classifyOne i A = classifyOne i A' := by
  have hfilter : A.filter (fun e => i.neighborAddress == e.neighborAddress)
      = A'.filter (fun e => i.neighborAddress == e.neighborAddress) :=
    perm_eq_of_length_le_one (hperm.filter _) (filter_addr_length_le_one _ A hA)
  unfold classifyOne
  rw [find?_eq_head?_filter, find?_eq_head?_filter, hfilter]

theorem processSession_perm {V : Type} [DecidableEq V] (i : NeighborConfig V)
    {A A' : List (NeighborConfig V)} (hperm : A.Perm A')
    (hA : (A.map (·.neighborAddress)).Nodup) :
    processSession i A = processSession i A' := by
  have hA' : (A'.map (·.neighborAddress)).Nodup :=
    ((hperm.map (·.neighborAddress)).nodup_iff).mp hA
  rw [processSession_eq_classify i A hA, processSession_eq_classify i A' hA',
    classifyOne_perm i hperm hA]

theorem cycleEvents_congr {V : Type} [DecidableEq V] (I A A' : List (NeighborConfig V))
    (h : ∀ i ∈ I, processSession i A = processSession i A') :
    cycleEvents I A = cycleEvents I A' := by
  induction I with
  | nil => rfl
  | cons i rest ih =>
    simp only [cycleEvents, h i (List.mem_cons_self _ _)]
    rw [ih fun j hj => h j (List.mem_cons_of_mem _ hj)]

/-- C8: the comparison depends only on the contents of the device collection,
not on its order — permuting the actual collection (with its invariant unique
addresses) leaves the events and the matched/updated/missing classification
unchanged.  (The embedding is purely functional, mirroring the Python loop,
which only reads its two input collections and never mutates them.) -/
theorem compare_order_insensitive {V : Type} [DecidableEq V]
    (I A A' : List (NeighborConfig V)) (hperm : A.Perm A')
    (hA : (A.map (·.neighborAddress)).Nodup) :
    cycleEvents I A = cycleEvents I A'
    ∧ matchedAddrs I A = matchedAddrs I A'
    ∧ updatedAddrs I A = updatedAddrs I A'
    ∧ missingAddrs I A = missingAddrs I A' := by
  have hpoint : ∀ i ∈ I, processSession i A = processSession i A' :=
    fun i _ => processSession_perm i hperm hA
  have hev : cycleEvents I A = cycleEvents I A' := cycleEvents_congr I A A' hpoint
  refine ⟨hev, ?_, ?_, ?_⟩
  · unfold matchedAddrs
    congr 1
    exact List.filter_congr fun i hi => by rw [hpoint i hi]
  · unfold updatedAddrs
    rw [hev]
  · unfold missingAddrs
    rw [hev]

theorem regexSearch_cons (c : Char) (l : List Char) :
    regexSearchNeighborAddress (c :: l)
      = if charsPrefix neighborAddressMarker (c :: l) then
          match lastBracketCapture
              (((c :: l).drop neighborAddressMarker.length).takeWhile (fun ch => ch != '\n')) with
          | some cap => some cap
          | none => regexSearchNeighborAddress l
        else regexSearchNeighborAddress l := rfl

theorem charsPrefix_append_self (l t : List Char) : charsPrefix l (l ++ t) = true := by
  induction l with
  | nil => rfl
  | cons a as ih => simp [charsPrefix, ih]

theorem lastBracketCapture_eq_none (l : List Char) (h : ']' ∉ l) :
    lastBracketCapture l = none := by
  induction l with
  | nil => rfl
  | cons c rest ih =>
    have hc : c ≠ ']' := fun hc => h (hc ▸ List.mem_cons_self _ _)
    have hrest : ']' ∉ rest := fun hr => h (List.mem_cons_of_mem _ hr)
    simp [lastBracketCapture, ih hrest, hc]

theorem lastBracketCapture_append (X post : List Char) (hX : ']' ∉ X)
    (hpost : ']' ∉ post) : lastBracketCapture (X ++ ']' :: post) = some X := by
  induction X with
  | nil =>
    simp [lastBracketCapture, lastBracketCapture_eq_none post hpost]
  | cons c X' ih =>
    have hc : ']' ∉ X' := fun hr => hX (List.mem_cons_of_mem _ hr)
    simp [lastBracketCapture, ih hc]

theorem takeWhile_append_of_all (p : Char → Bool) (l1 l2 : List Char)
    (h : ∀ c ∈ l1, p c = true) :
    (l1 ++ l2).takeWhile p = l1 ++ l2.takeWhile p := by
  induction l1 with
  | nil => rfl
  | cons a as ih =>
    simp only [List.cons_append, List.takeWhile_cons, h a (List.mem_cons_self _ _)]
    simp [ih fun c hc => h c (List.mem_cons_of_mem _ hc)]

theorem regexSearch_marker_some (t cap : List Char)
    (hcap : lastBracketCapture (t.takeWhile (fun ch => ch != '\n')) = some cap) :
    regexSearchNeighborAddress (neighborAddressMarker ++ t) = some cap := by
  have h1 : charsPrefix neighborAddressMarker (neighborAddressMarker ++ t) = true :=
    charsPrefix_append_self _ _
  have h2 : (neighborAddressMarker ++ t).drop neighborAddressMarker.length = t :=
    List.drop_left _ _
  have key : regexSearchNeighborAddress (neighborAddressMarker ++ t)
      = if charsPrefix neighborAddressMarker (neighborAddressMarker ++ t) then
          match lastBracketCapture
              (((neighborAddressMarker ++ t).drop
                neighborAddressMarker.length).takeWhile (fun ch => ch != '\n')) with
          | some cap' => some cap'
          | none => regexSearchNeighborAddress ("neighbor-address=".data ++ t)
        else regexSearchNeighborAddress ("neighbor-address=".data ++ t) := rfl
  rw [key, h2, hcap]
  simp [h1]

theorem charsPrefix_marker_cons_false {c : Char} (hc : c ≠ '[') (l : List Char) :
    charsPrefix neighborAddressMarker (c :: l) = false := by
  have hm : neighborAddressMarker = '[' :: "neighbor-address=".data := rfl
  rw [hm]
  have hbeq : ('[' == c) = false := by
    simp only [beq_eq_false_iff_ne]
    exact fun h => hc h.symm
  simp [charsPrefix, hbeq]

theorem regexSearch_wellformed (preL XL postL : List Char)
    (hpre : ∀ c ∈ preL, c ≠ '[')
    (hX1 : ']' ∉ XL) (hX2 : '\n' ∉ XL) (hpost : ']' ∉ postL) :
    regexSearchNeighborAddress (preL ++ neighborAddressMarker ++ (XL ++ ']' :: postL))
      = some XL := by
  induction preL with
  | nil =>
    rw [List.nil_append]
    apply regexSearch_marker_some
    have hXall : ∀ c ∈ XL, (c != '\n') = true := by
      intro c hcmem
      simp only [bne_iff_ne, ne_eq]
      exact fun h => hX2 (h ▸ hcmem)
    rw [takeWhile_append_of_all _ XL (']' :: postL) hXall]
    have hbr : ((']' :: postL).takeWhile (fun ch => ch != '\n'))
        = ']' :: postL.takeWhile (fun ch => ch != '\n') := by
      simp [List.takeWhile_cons]
    rw [hbr]
    apply lastBracketCapture_append XL _ hX1
    intro hmem
    exact hpost ((List.takeWhile_sublist _).subset hmem)
  | cons c pre ih =>
    rw [List.cons_append, List.cons_append, regexSearch_cons,
      charsPrefix_marker_cons_false (hpre c (List.mem_cons_self _ _)) _]
    simp only [Bool.false_eq_true, if_false]
    exact ih fun c' hc' => hpre c' (List.mem_cons_of_mem _ hc')

/-- C4 (amended): when the path decomposes as a prefix without any opening
bracket, the `[neighbor-address=X]` segment with a bracket-free, newline-free
value, and a suffix containing no further closing bracket, extraction succeeds
and returns exactly that value as the neighbor address. -/
theorem extract_address_from_wellformed_segment {V : Type} (u : PathUpdate V)
    (preL XL postL : List Char)
    (hpath : u.path.data = preL ++ neighborAddressMarker ++ (XL ++ ']' :: postL))
    (hpre : ∀ c ∈ preL, c ≠ '[')
    (hX1 : ']' ∉ XL) (hX2 : '\n' ∉ XL) (hpost : ']' ∉ postL) :
    ∃ cfg, extract_config_from_device_session u = .ok cfg
      ∧ cfg.neighborAddress.data = XL := by
  unfold extract_config_from_device_session
  rw [hpath, regexSearch_wellformed preL XL postL hpre hX1 hX2 hpost]
  exact ⟨_, rfl, rfl⟩

/-- C4 counterexample. -/
theorem extract_greedy_capture_not_exact :
    containsSub "[neighbor-address=10.0.0.1]".data
        "[neighbor-address=10.0.0.1]/x[y=1]".data = true
    ∧ containsSub configKeyMarker ":config".data = true
    ∧ extract_config_from_device_session
        ({ path := "[neighbor-address=10.0.0.1]/x[y=1]",
           val := [(":config", some 1)] } : PathUpdate Nat)
      = .ok { neighborAddress := "10.0.0.1]/x[y=1", config := some 1 }
    ∧ ("10.0.0.1]/x[y=1" : String) ≠ "10.0.0.1" := by
  refine ⟨by decide, by decide, ?_, by decide⟩
  rfl

theorem extract_address_witness :
    (∀ c ∈ "ab".data, c ≠ '[')
    ∧ (']' ∉ "10.0.0.1".data)
    ∧ ∃ cfg, extract_config_from_device_session
        ({ path := "ab[neighbor-address=10.0.0.1]",
           val := [(":config", some 2)] } : PathUpdate Nat)
        = .ok cfg ∧ cfg.neighborAddress.data = "10.0.0.1".data :=
  ⟨by decide, by decide,
    extract_address_from_wellformed_segment _ "ab".data "10.0.0.1".data []
      (by decide) (by decide) (by decide) (by decide) (by decide)⟩

theorem foldl_config_eq {V : Type} (l : List (String × Option V)) (acc : Option V) :
    l.foldl (fun acc kv => if containsSub configKeyMarker kv.1.data then kv.2 else acc) acc
      = match l.reverse.find? (fun kv => containsSub configKeyMarker kv.1.data) with
        | none => acc
        | some kv => kv.2 := by
  induction l generalizing acc with
  | nil => rfl
  | cons kv rest ih =>
    rw [List.foldl_cons, ih, List.reverse_cons, List.find?_append]
    rcases hfind : rest.reverse.find? (fun kv => containsSub configKeyMarker kv.1.data)
      with _ | kv'
    · rw [hfind]
      cases hP : containsSub configKeyMarker kv.1.data <;>
        simp [List.find?_cons, hP]
    · rw [hfind]
      rfl

/-- C9: the `config` field is the value of the last `val` key containing
`:config` (later matches overwrite earlier ones); with no such key it stays
Python `None`, without failing. -/
theorem extract_config_last_key {V : Type} (u : PathUpdate V) (cfg : NeighborConfig V)
    (h : extract_config_from_device_session u = .ok cfg) :
    cfg.config =
      match u.val.reverse.find? (fun kv => containsSub configKeyMarker kv.1.data) with
      | none => none
      | some kv => kv.2 := by
  unfold extract_config_from_device_session at h
  rcases hsearch : regexSearchNeighborAddress u.path.data with _ | cap
  · rw [hsearch] at h
    cases h
  · rw [hsearch] at h
    injection h with h
    rw [← h]
    exact foldl_config_eq u.val none

theorem extract_config_last_key_witness :
    extract_config_from_device_session
        ({ path := "[neighbor-address=9.9.9.9]",
           val := [("a:config", some 1), ("b", some 2), ("c:config", some 5)] } : PathUpdate Nat)
      = .ok { neighborAddress := "9.9.9.9", config := some 5 }
    ∧ (some 5 : Option Nat) =
      match ([("a:config", (some 1 : Option Nat)), ("b", some 2),
          ("c:config", some 5)]).reverse.find?
          (fun kv => containsSub configKeyMarker kv.1.data) with
      | none => none
      | some kv => kv.2 :=
  ⟨rfl, extract_config_last_key
    ({ path := "[neighbor-address=9.9.9.9]",
       val := [("a:config", some 1), ("b", some 2), ("c:config", some 5)] } : PathUpdate Nat)
    { neighborAddress := "9.9.9.9", config := some 5 } rfl⟩

theorem regexSearch_eq_none_of_not_contains (l : List Char)
    (h : containsSub neighborAddressMarker l = false) :
    regexSearchNeighborAddress l = none := by
  induction l with
  | nil => rfl
  | cons c rest ih =>
    have hsplit : (charsPrefix neighborAddressMarker (c :: rest)
        || containsSub neighborAddressMarker rest) = false := h
    rw [Bool.or_eq_false_iff] at hsplit
    rw [regexSearch_cons, hsplit.1]
    simp only [Bool.false_eq_true, if_false]
    exact ih hsplit.2

theorem extract_malformed {V : Type} (u : PathUpdate V)
    (h : containsSub neighborAddressMarker u.path.data = false) :
    extract_config_from_device_session u = .error .malformedPath := by
  unfold extract_config_from_device_session
  rw [regexSearch_eq_none_of_not_contains _ h]

theorem extractAll_error_of_mem {V : Type} {u : PathUpdate V} {us : List (PathUpdate V)}
    (hmem : u ∈ us)
    (herr : extract_config_from_device_session u = .error .malformedPath) :
    extractAll us = .error .malformedPath := by
  induction us with
  | nil => cases hmem
  | cons v rest ih =>
    rcases List.mem_cons.mp hmem with rfl | hmem'
    · unfold extractAll
      rw [herr]
    · unfold extractAll
      cases hv : extract_config_from_device_session v with
      | error e => cases e ; rfl
      | ok c => rw [ih hmem']

/-- C5 (amended): a path update without the `[neighbor-address=` marker makes
the extraction step fail (the model's `MalformedPathError`; in the source an
uncaught `AttributeError` from `result.group(1)` on a failed search), and —
because the loop has no exception handling — that failure aborts the entire
reconciliation loop, not only the current cycle: no later cycle runs. -/
theorem extract_missing_segment_aborts_loop {V : Type} [DecidableEq V] (u : PathUpdate V)
    (h : containsSub neighborAddressMarker u.path.data = false) :
    extract_config_from_device_session u = .error .malformedPath
    ∧ ∀ (interval : Nat) (I : List (NeighborConfig V)) (us : List (PathUpdate V))
        (rest : List (CycleEnv V)), u ∈ us →
        runLoop interval (⟨.ok I, .ok us⟩ :: rest)
          = .error (.extractError .malformedPath) := by
  have hext := extract_malformed u h
  refine ⟨hext, ?_⟩
  intro interval I us rest hmem
  have hall : extractAll us = .error .malformedPath := extractAll_error_of_mem hmem hext
  simp only [runLoop, runCycle, hall]

/-- C5 counterexample: a malformed record in the first cycle terminates the
run before the second cycle, which on its own would have succeeded — the
failure is not contained to the current cycle. -/
theorem extract_error_kills_loop :
    runLoop 1
        ([⟨.ok [], .ok [⟨"no-segment", []⟩]⟩, ⟨.ok [], .ok []⟩] : List (CycleEnv Nat))
      = .error (.extractError .malformedPath)
    ∧ runLoop 1 ([⟨.ok [], .ok []⟩] : List (CycleEnv Nat))
      = .ok [⟨[], true, 1⟩] :=
  ⟨rfl, rfl⟩

theorem extract_missing_segment_witness :
    containsSub neighborAddressMarker "openconfig:/interfaces".data = false
    ∧ extract_config_from_device_session
        (⟨"openconfig:/interfaces", []⟩ : PathUpdate Nat)
        = .error .malformedPath
    ∧ runLoop 5
        ([⟨.ok [], .ok [⟨"openconfig:/interfaces", []⟩]⟩] : List (CycleEnv Nat))
      = .error (.extractError .malformedPath) := by
  have h : containsSub neighborAddressMarker "openconfig:/interfaces".data = false := by
    decide
  exact ⟨h, (extract_missing_segment_aborts_loop _ h).1,
    (extract_missing_segment_aborts_loop (⟨"openconfig:/interfaces", []⟩ : PathUpdate Nat) h).2
      5 [] _ [] (List.mem_singleton.mpr rfl)⟩

/-- C6 (amended): the loop contains no error handling at all — follow-on
cycles run only while every preceding cycle is error-free, and the first
fetch or extraction error terminates the whole loop with that error
propagating: the run produces no further cycle results. -/
theorem loop_error_propagation {V : Type} [DecidableEq V] (interval : Nat)
    (pre : List (CycleEnv V)) (bad : CycleEnv V) (rest : List (CycleEnv V))
    (e : CycleError)
    (hpre : ∀ env ∈ pre, ∃ r, runCycle interval env = .ok r)
    (hbad : runCycle interval bad = .error e) :
    runLoop interval (pre ++ bad :: rest) = .error e := by
  induction pre with
  | nil =>
    rw [List.nil_append]
    unfold runLoop
    rw [hbad]
  | cons env pre' ih =>
    obtain ⟨r, hr⟩ := hpre env (List.mem_cons_self _ _)
    have hrec := ih fun env' henv' => hpre env' (List.mem_cons_of_mem _ henv')
    rw [List.cons_append]
    unfold runLoop
    rw [hr, hrec]
    rfl

/-- C6 counterexample: a fetch error in the first cycle terminates the run;
the second cycle — fine on its own — never happens. -/
theorem fetch_error_kills_loop :
    runLoop 2
        ([⟨.error .transport, .ok []⟩, ⟨.ok [], .ok []⟩] : List (CycleEnv Nat))
      = .error .fetchIntendedError
    ∧ runLoop 2 ([⟨.ok [], .ok []⟩] : List (CycleEnv Nat))
      = .ok [⟨[], true, 2⟩] :=
  ⟨rfl, rfl⟩

theorem loop_error_propagation_witness :
    (∀ env ∈ ([⟨.ok [⟨"10.0.0.1", some 1⟩], .ok []⟩] : List (CycleEnv Nat)),
        ∃ r, runCycle 3 env = .ok r)
    ∧ runLoop 3
        ([⟨.ok [⟨"10.0.0.1", some 1⟩], .ok []⟩,
          ⟨.ok [], .error .transport⟩] : List (CycleEnv Nat))
      = .error .deviceFetchError := by
  have hpre : ∀ env ∈ ([⟨.ok [⟨"10.0.0.1", some 1⟩], .ok []⟩] : List (CycleEnv Nat)),
      ∃ r, runCycle 3 env = .ok r := by
    intro env henv
    rw [List.mem_singleton.mp henv]
    exact ⟨_, rfl⟩
  exact ⟨hpre, loop_error_propagation 3 _ _ [] _ hpre rfl⟩

/-- C1 (amended): the mutation response is never inspected.  Whenever the
interface query, the branch creation and the mutation round trips all return
2xx bodies — whether or not the mutation body carries a top-level errors
array — the command proceeds to issue the branch-merge request; only a raised
HTTP/transport exception on the mutation call stops the sequence before the
merge request. -/
theorem admin_status_merge_requested_regardless (device interface branchName : String)
    (svc : Service) (r1 r2 : GraphQLResponse)
    (h1 : svc (Request.getInterface device interface) = .ok r1)
    (h2 : svc (Request.branchCreate branchName) = .ok r2) :
    (∀ r3, svc (Request.interfaceUpdateAdminStatus branchName r1.interfaceId
          (!r1.interfaceEnabled)) = .ok r3 →
        Request.branchMerge branchName
          ∈ (change_admin_status device interface branchName svc).1)
    ∧ (∀ e, svc (Request.interfaceUpdateAdminStatus branchName r1.interfaceId
          (!r1.interfaceEnabled)) = .error e →
        (change_admin_status device interface branchName svc).1
          = [Request.getInterface device interface, Request.branchCreate branchName,
             Request.interfaceUpdateAdminStatus branchName r1.interfaceId
               (!r1.interfaceEnabled)]) := by
  constructor
  · intro r3 h3
    simp only [change_admin_status, h1, h2, h3]
    cases svc (Request.branchMerge branchName) <;> simp
  · intro e h3
    simp only [change_admin_status, h1, h2, h3]

/-- C1 counterexample: the mutation on the fresh branch returns an error
response, yet the branch-merge request is still issued and the command even
reports overall success — the claimed FAILED state without a merge request
does not exist in the code. -/
theorem mutation_error_merge_still_requested :
    svcMutFail (Request.interfaceUpdateAdminStatus "b1" "intf-1" false)
      = .ok { errors := some ["mutation failed"] }
    ∧ Request.branchMerge "b1" ∈ (change_admin_status "sw1" "eth0" "b1" svcMutFail).1
    ∧ (change_admin_status "sw1" "eth0" "b1" svcMutFail).2 = .ok AdminOutcome.success := by
  refine ⟨rfl, ?_, rfl⟩
  decide

theorem admin_status_merge_requested_witness :
    svcMutFail (Request.getInterface "sw1" "eth0")
      = .ok { interfaceId := "intf-1", interfaceEnabled := true }
    ∧ svcMutFail (Request.branchCreate "b1")
      = .ok { interfaceId := "intf-1", interfaceEnabled := true }
    ∧ Request.branchMerge "b1" ∈ (change_admin_status "sw1" "eth0" "b1" svcMutFail).1 :=
  ⟨rfl, rfl,
    (admin_status_merge_requested_regardless "sw1" "eth0" "b1" svcMutFail
        { interfaceId := "intf-1", interfaceEnabled := true }
        { interfaceId := "intf-1", interfaceEnabled := true } rfl rfl).1
      { errors := some ["mutation failed"] } rfl⟩

/-- C10: when the circuit's current status in the source-of-truth already
equals the requested status, the command returns False at once; the only
request ever issued is the read-only circuit query — no branch is created, no
mutation and no merge are requested, so the source-of-truth is left
untouched. -/
theorem circuit_status_noop (circuit status branchName : String) (svc : Service)
    (r1 : GraphQLResponse)
    (hq : svc (Request.getCircuit circuit) = .ok r1)
    (hstatus : r1.circuitStatus = status) :
    change_circuit_status circuit status branchName svc
      = ([Request.getCircuit circuit], .ok CircuitOutcome.nothingToDo) := by
  simp only [change_circuit_status, hq, if_pos hstatus]

theorem circuit_status_noop_witness :
    svcCircuitActive (Request.getCircuit "ckt-1")
      = .ok { circuitStatus := "active", circuitId := "ckt-uuid" }
    ∧ change_circuit_status "ckt-1" "active" "b9" svcCircuitActive
      = ([Request.getCircuit "ckt-1"], .ok CircuitOutcome.nothingToDo) :=
  ⟨rfl, circuit_status_noop "ckt-1" "active" "b9" svcCircuitActive
    { circuitStatus := "active", circuitId := "ckt-uuid" } rfl rfl⟩

theorem compare_partition_witness :
    ((([⟨"10.0.0.1", some 1⟩, ⟨"10.0.0.2", some 2⟩] : List (NeighborConfig Nat)).map
        (·.neighborAddress)).Nodup)
    ∧ ("10.0.0.2" ∈ ([⟨"10.0.0.1", some 1⟩, ⟨"10.0.0.2", some 2⟩] :
          List (NeighborConfig Nat)).map (·.neighborAddress)
      ↔ ("10.0.0.2" ∈ matchedAddrs ([⟨"10.0.0.1", some 1⟩, ⟨"10.0.0.2", some 2⟩] :
            List (NeighborConfig Nat)) [⟨"10.0.0.1", some 9⟩]
        ∨ "10.0.0.2" ∈ updatedAddrs ([⟨"10.0.0.1", some 1⟩, ⟨"10.0.0.2", some 2⟩] :
            List (NeighborConfig Nat)) [⟨"10.0.0.1", some 9⟩]
        ∨ "10.0.0.2" ∈ missingAddrs ([⟨"10.0.0.1", some 1⟩, ⟨"10.0.0.2", some 2⟩] :
            List (NeighborConfig Nat)) [⟨"10.0.0.1", some 9⟩])) :=
  ⟨by decide, (compare_partition _ _ (by decide)).1 "10.0.0.2"⟩

theorem plan_ops_witness :
    ((([⟨"10.0.0.1", some 9⟩] : List (NeighborConfig Nat)).map (·.neighborAddress)).Nodup)
    ∧ cycleOps ([⟨"10.0.0.1", some 1⟩, ⟨"10.0.0.2", some 2⟩] : List (NeighborConfig Nat))
        [⟨"10.0.0.1", some 9⟩]
      = (([⟨"10.0.0.1", some 1⟩, ⟨"10.0.0.2", some 2⟩] : List (NeighborConfig Nat)).filter
          fun i => decide (¬ classifyOne i [⟨"10.0.0.1", some 9⟩] = SessionClass.matched)).map
          mkOp :=
  ⟨by decide, (plan_one_op_per_divergent_session _ _ (by decide)).1⟩

theorem reconcile_idempotent_witness :
    ((([⟨"10.0.0.1", some 1⟩, ⟨"10.0.0.2", some 2⟩] : List (NeighborConfig Nat)).map
        (·.neighborAddress)).Nodup)
    ∧ cycleOps ([⟨"10.0.0.1", some 1⟩, ⟨"10.0.0.2", some 2⟩] : List (NeighborConfig Nat))
        [⟨"10.0.0.1", some 1⟩, ⟨"10.0.0.2", some 2⟩] = []
    ∧ runCycleCore ([⟨"10.0.0.1", some 1⟩, ⟨"10.0.0.2", some 2⟩] : List (NeighborConfig Nat))
        [⟨"10.0.0.1", some 1⟩, ⟨"10.0.0.2", some 2⟩] 10 = ⟨[], true, 10⟩ :=
  ⟨by decide, (reconcile_idempotent _ 10 (by decide)).1,
    (reconcile_idempotent _ 10 (by decide)).2⟩

theorem compare_order_insensitive_witness :
    (([⟨"10.0.0.1", some 1⟩, ⟨"10.0.0.2", some 2⟩] : List (NeighborConfig Nat)).Perm
        [⟨"10.0.0.2", some 2⟩, ⟨"10.0.0.1", some 1⟩])
    ∧ ((([⟨"10.0.0.1", some 1⟩, ⟨"10.0.0.2", some 2⟩] : List (NeighborConfig Nat)).map
        (·.neighborAddress)).Nodup)
    ∧ cycleEvents ([⟨"10.0.0.1", some 7⟩] : List (NeighborConfig Nat))
        [⟨"10.0.0.1", some 1⟩, ⟨"10.0.0.2", some 2⟩]
      = cycleEvents [⟨"10.0.0.1", some 7⟩] [⟨"10.0.0.2", some 2⟩, ⟨"10.0.0.1", some 1⟩] :=
  ⟨by decide, by decide, (compare_order_insensitive _ _ _ (by decide) (by decide)).1⟩

end Demo
